import Mathlib

/-!
Verification of the build orchestration pipeline of `src/lib/build.js`.

The JavaScript source is shallowly embedded below:
* pure string formatting (`renderHeadTag`, `renderAttrs`, `needsClosing`,
  `renderPageMeta`) becomes pure Lean functions on lists of key/value pairs
  (modelling JavaScript object key iteration order as list order);
* the emitted file system is an association list from (outDir-relative)
  file names to file contents;
* the stateful build pipeline becomes a function producing an observable
  event trace together with either the final file system or an error;
* the external collaborators (webpack, `vue-server-renderer`) are parameters:
  the webpack invocation outcome is a value of type `CompileOutcome`, and
  `renderer.renderToString` is a function `RenderContext → Except String String`.
-/

set_option autoImplicit false

/-! ## Data model (spec section 3, source lines 19-24, 109-119) -/

/-- A head tag specification from `siteConfig.head`.  `attrs` models the
JavaScript attribute object as an ordered list of name/value pairs
(`Object.keys` iteration order). -/
structure HeadTagSpec where
  tag : String
  attrs : List (String × String)
  innerHTML : Option String
  deriving DecidableEq

/-- The optional `frontmatter` object of a page; only its optional `meta`
field (an array of attribute objects) is read by the build (line 111). -/
structure Frontmatter where
  meta : Option (List (List (String × String)))
  deriving DecidableEq

/-- A page of the site: `path` is a site-relative URL (source line 110). -/
structure Page where
  path : String
  frontmatter : Option Frontmatter
  deriving DecidableEq

/-- The `siteConfig` object; only the optional `head` array is used
(source line 54). -/
structure SiteConfig where
  head : Option (List HeadTagSpec)
  deriving DecidableEq

/-- The `siteData` object; only `pages` is used (source lines 59, 62). -/
structure SiteData where
  pages : List Page
  deriving DecidableEq

/-- The prepared site options (`prepare(sourceDir)`, source line 19). -/
structure SiteOptions where
  outDir : String
  siteConfig : SiteConfig
  siteData : SiteData
  deriving DecidableEq

/-- The render context constructed per page (source lines 113-119): the
exact, complete input of one `renderer.renderToString` call. -/
structure RenderContext where
  url : String
  userHeadTags : String
  pageMeta : String
  title : String
  lang : String
  deriving DecidableEq

/-! ## String-append helper lemmas -/

theorem strAppend_empty (s : String) : s ++ "" = s := by
  cases s with
  | mk data => exact congrArg String.mk (List.append_nil data)

theorem strAppend_assoc (a b c : String) : a ++ b ++ c = a ++ (b ++ c) := by
  cases a with
  | mk da =>
    cases b with
    | mk db =>
      cases c with
      | mk dc => exact congrArg String.mk (List.append_assoc da db dc)

/-! ## HeadTagRenderer (source lines 90-107) -/

/-- `needsClosing` (source lines 96-98): `!(tag === 'link' || tag === 'meta')`. -/
def needsClosing (tag : String) : Bool :=
  !(tag == "link" || tag == "meta")

/-- `renderAttrs` (source lines 100-107): a leading space and space-joined
`name="value"` pairs when the attribute object has keys, otherwise `''`. -/
def renderAttrs (attrs : List (String × String)) : String :=
  if attrs.isEmpty then ""
  else " " ++ String.intercalate " " (attrs.map (fun p => p.1 ++ "=\"" ++ p.2 ++ "\""))

/-- `renderHeadTag` (source lines 90-94): the template literal
`<tag attrs>innerHTML</tag>`, with the closing tag only when
`needsClosing` holds, and `t.innerHTML || ''` modelled by `Option.getD`. -/
def renderHeadTag (t : HeadTagSpec) : String :=
  "<" ++ t.tag ++ renderAttrs t.attrs ++ ">" ++ t.innerHTML.getD ""
    ++ (if needsClosing t.tag then "</" ++ t.tag ++ ">" else "")

/-- Concatenation of a list of strings without separator, the model of the
JavaScript `[].join('')`. -/
def strJoin : List String → String
  | [] => ""
  | s :: rest => s ++ strJoin rest

/-- `renderPageMeta` (source lines 135-144): `''` when `meta` is absent,
otherwise per entry a `<meta` seed extended by one ` key="value"` per
attribute (the `forEach` append loop is a fold), closed by `>`, with the
entry strings joined by `''`. -/
def renderPageMeta (meta : Option (List (List (String × String)))) : String :=
  match meta with
  | none => ""
  | some entries =>
    strJoin (entries.map (fun m =>
      (m.foldl (fun res p => res ++ " " ++ p.1 ++ "=\"" ++ p.2 ++ "\"") "<meta") ++ ">"))

/-- Formalisation of the wording of claim C6 for the head-tag renderer:
attributes render as a leading space then space-joined `name="value"` pairs
in iteration order (empty mapping renders no attributes), and exactly the
tag names `link` and `meta` get no closing tag. -/
def renderHeadTagSpec (t : HeadTagSpec) : String :=
  let attrStr :=
    if t.attrs.isEmpty then ""
    else " " ++ String.intercalate " " (t.attrs.map (fun p => p.1 ++ "=\"" ++ p.2 ++ "\""))
  if t.tag == "link" || t.tag == "meta" then
    "<" ++ t.tag ++ attrStr ++ ">" ++ t.innerHTML.getD ""
  else
    "<" ++ t.tag ++ attrStr ++ ">" ++ t.innerHTML.getD "" ++ "</" ++ t.tag ++ ">"

/-- Formalisation of the wording of claim C9 for the page-meta renderer:
the concatenation, without separator, of one `<meta attr="value" ...>`
string per entry, preserving entry order and attribute order, and the
empty string when the sequence is absent. -/
def renderPageMetaSpec (meta : Option (List (List (String × String)))) : String :=
  match meta with
  | none => ""
  | some entries =>
    strJoin (entries.map (fun m =>
      "<meta" ++ strJoin (m.map (fun p => " " ++ p.1 ++ "=\"" ++ p.2 ++ "\"")) ++ ">"))

theorem foldl_meta_eq (l : List (String × String)) :
    ∀ init : String,
      l.foldl (fun res p => res ++ " " ++ p.1 ++ "=\"" ++ p.2 ++ "\"") init
        = init ++ strJoin (l.map (fun p => " " ++ p.1 ++ "=\"" ++ p.2 ++ "\"")) := by
  induction l with
  | nil => intro init; simp [strJoin, strAppend_empty]
  | cons p ps ih =>
    intro init
    rw [List.foldl_cons, ih]
    simp only [List.map_cons, strJoin, strAppend_assoc]

/-! ## PageEmitter output paths (source lines 129-132) -/

/-- The model of `pagePath.replace(/^\//, '')`: remove one leading `/` when
present, otherwise leave the string unchanged. -/
def stripLeadingSlash (s : String) : String :=
  match s.toList with
  | '/' :: rest => String.mk rest
  | _ => s

/-- The output file name of a page (source line 129):
`pagePath === '/' ? 'index.html' : pagePath.replace(/^\//, '')`. -/
def outputFilename (pagePath : String) : String :=
  if pagePath == "/" then "index.html" else stripLeadingSlash pagePath

/-! ## Claim theorems C6, C7, C9 -/

/-- Claim C6: for every `HeadTagSpec`, `renderHeadTag` emits
`<tag attrs>innerHTML</tag>` with a closing tag for every tag name except
exactly `link` and `meta` (which get no closing tag); attributes render as
a leading space then space-joined `name="value"` pairs in the mapping's
iteration order with no escaping, an empty attribute mapping renders no
attributes; in particular the two concrete examples of the claim hold. -/
theorem c6_renderHeadTag_correct :
    (∀ t : HeadTagSpec, renderHeadTag t = renderHeadTagSpec t)
    ∧ renderHeadTag { tag := "meta", attrs := [("charset", "utf-8")], innerHTML := none }
        = "<meta charset=\"utf-8\">"
    ∧ renderHeadTag { tag := "script", attrs := [], innerHTML := some "1" }
        = "<script>1</script>" := by
  refine ⟨?_, by decide, by decide⟩
  intro t
  by_cases h : (t.tag == "link" || t.tag == "meta") = true
  · simp [renderHeadTag, renderHeadTagSpec, needsClosing, renderAttrs, h, strAppend_empty]
  · simp [renderHeadTag, renderHeadTagSpec, needsClosing, renderAttrs, h, strAppend_assoc]

/-- Claim C7: the output file path of a successfully rendered page is
`index.html` when `page.path = '/'`, and otherwise the page path with its
single leading `/` stripped, used verbatim (e.g. `/foo/bar.html` is written
to `foo/bar.html`). -/
theorem c7_output_path :
    outputFilename "/" = "index.html"
    ∧ (∀ (p : String) (rest : List Char),
        p.toList = '/' :: rest → rest ≠ [] → outputFilename p = String.mk rest)
    ∧ outputFilename "/foo/bar.html" = "foo/bar.html" := by
  refine ⟨by decide, ?_, by decide⟩
  intro p rest h hne
  by_cases hp : p = "/"
  · subst hp
    have hlit : ("/").toList = ['/'] := by decide
    rw [hlit] at h
    injection h with h1 h2
    exact absurd h2.symm hne
  · have hb : (p == "/") = false := by
      simp [beq_eq_false_iff_ne, hp]
    have hd : p.data = '/' :: rest := h
    simp [outputFilename, hb, stripLeadingSlash, String.toList, hd]

/-- Witness for claim C7 at the concrete page path `/foo/bar.html`. -/
theorem c7_output_path_witness :
    outputFilename "/foo/bar.html"
      = String.mk ['f', 'o', 'o', '/', 'b', 'a', 'r', '.', 'h', 't', 'm', 'l'] :=
  c7_output_path.2.1 "/foo/bar.html"
    ['f', 'o', 'o', '/', 'b', 'a', 'r', '.', 'h', 't', 'm', 'l']
    (by decide) (by decide)

/-- Claim C9: `renderPageMeta` maps an ordered sequence of attribute
mappings to the concatenation (no separator) of one `<meta attr="value" ...>`
string per entry, preserving entry order and attribute iteration order,
with no escaping and no closing tags, and returns `""` when the meta
sequence is absent. -/
theorem c9_renderPageMeta_correct :
    (∀ meta, renderPageMeta meta = renderPageMetaSpec meta)
    ∧ renderPageMeta none = "" := by
  refine ⟨?_, rfl⟩
  intro meta
  cases meta with
  | none => rfl
  | some entries =>
    have hfun : (fun (m : List (String × String)) =>
          (m.foldl (fun res p => res ++ " " ++ p.1 ++ "=\"" ++ p.2 ++ "\"") "<meta") ++ ">")
        = (fun (m : List (String × String)) =>
          "<meta" ++ strJoin (m.map (fun p => " " ++ p.1 ++ "=\"" ++ p.2 ++ "\"")) ++ ">") := by
      funext m
      rw [foldl_meta_eq]
    simp only [renderPageMeta, renderPageMetaSpec, hfun]

/-! ## Compile report and emitted file system (source lines 31, 72-88, 146-161) -/

/-- An emitted asset descriptor of a compilation target. -/
structure Asset where
  name : String
  deriving DecidableEq

/-- One per-target result of the webpack multi-compilation: its emitted
assets and its aggregated error list. -/
structure TargetStats where
  assets : List Asset
  errors : List String
  deriving DecidableEq

/-- The normalized compile report `stats.toJson(...)`: the per-target
results, in the order of the configuration array `[clientConfig,
serverConfig]` passed at source line 31. -/
structure Stats where
  children : List TargetStats
  deriving DecidableEq

/-- `stats.hasErrors()` of a webpack multi-stats object: some target
reported at least one error. -/
def hasErrors (s : Stats) : Bool :=
  s.children.any (fun c => !c.errors.isEmpty)

/-- `stats.toJson().errors`: the errors of all targets, in target order. -/
def statsErrors (s : Stats) : List String :=
  (s.children.map TargetStats.errors).flatten

/-- Whether `p` is an initial segment of `cs`. -/
def listStartsWith : List Char → List Char → Bool
  | [], _ => true
  | _ :: _, [] => false
  | a :: ps, b :: rest => a == b && listStartsWith ps rest

/-- Whether `s` starts with `pre`. -/
def strStartsWith (s pre : String) : Bool :=
  listStartsWith pre.toList s.toList

/-- The emitted output directory, as an association list from
outDir-relative file name to file content; lookups return the first
matching entry. -/
abbrev FS := List (String × String)

/-- `readFile`: the content of the named file, if present. -/
def readFile (fs : FS) (name : String) : Option String :=
  (fs.find? (fun e => e.1 == name)).map Prod.snd

/-- `rimraf` of a single file: every entry with the given name is removed. -/
def deleteFile (fs : FS) (name : String) : FS :=
  fs.filter (fun e => e.1 != name)

/-- `writeFile`: overwrite the named file with the given content. -/
def writeFileFs (fs : FS) (name content : String) : FS :=
  deleteFile fs name ++ [(name, content)]

/-- `rimraf(path.resolve(outDir, 'manifest'))` (source line 37): the
`manifest` entry and every entry below `manifest/` are removed. -/
def removeManifestDir (fs : FS) : FS :=
  fs.filter (fun e => !(strStartsWith e.1 "manifest/") && e.1 != "manifest")

/-! ## Chunk name patterns (source lines 148, 156) -/

/-- `\w` of the JavaScript regexes: `[A-Za-z0-9_]`. -/
def isWordChar (c : Char) : Bool :=
  c.isAlphanum || c == '_'

/-- `RegExp.test` for an end-anchored pattern `X\.\w{8}\.js$`, checked on
the reversed character list of the name: the name must end with `.js`,
preceded by eight word characters, preceded by `.`, preceded by the
(reversed) literal `preRev`. -/
def chunkPatRev (preRev : List Char) (rev : List Char) : Bool :=
  listStartsWith ['s', 'j', '.'] rev
    && ((rev.drop 3).take 8).length == 8
    && ((rev.drop 3).take 8).all isWordChar
    && listStartsWith ('.' :: preRev) (rev.drop 11)

/-- `/styles\.\w{8}\.js$/.test(name)` (source line 148); the literal list
is `"styles"` reversed. -/
def matchesStyleChunk (name : String) : Bool :=
  chunkPatRev ['s', 'e', 'l', 'y', 't', 's'] name.toList.reverse

/-- `/app\.\w{8}\.js$/.test(name)` (source line 156); the literal list is
`"app"` reversed. -/
def matchesAppChunk (name : String) : Bool :=
  chunkPatRev ['p', 'p', 'a'] name.toList.reverse

/-! ## AssetStitcher: `workaroundEmptyStyleChunk` (source lines 146-161) -/

/-- The asset list the stitching step searches: `stats.children[0].assets`
(source lines 147, 155); `none` models the crash when `children` is empty. -/
def stitchSearchedAssets (stats : Stats) : Option (List Asset) :=
  stats.children.head?.map TargetStats.assets

/-- `workaroundEmptyStyleChunk` (source lines 146-161): locate the style
chunk in `stats.children[0].assets`, read its content, delete its file,
locate the app chunk in the same list, read its content (after the
deletion), and overwrite the app-chunk file with the concatenation
style content ++ app content.  `none` models the fatal crash/rejection
paths (missing asset or missing file). -/
def workaroundEmptyStyleChunk (stats : Stats) (fs : FS) : Option FS :=
  match stitchSearchedAssets stats with
  | none => none
  | some assets =>
    match assets.find? (fun a => matchesStyleChunk a.name) with
    | none => none
    | some styleChunk =>
      match readFile fs styleChunk.name with
      | none => none
      | some styleChunkContent =>
        match assets.find? (fun a => matchesAppChunk a.name) with
        | none => none
        | some appChunk =>
          match readFile (deleteFile fs styleChunk.name) appChunk.name with
          | none => none
          | some appChunkContent =>
            some (writeFileFs (deleteFile fs styleChunk.name) appChunk.name
              (styleChunkContent ++ appChunkContent))

/-! ## File-system lemmas -/

theorem readFile_cons (e : String × String) (fs : FS) (n : String) :
    readFile (e :: fs) n = if e.1 == n then some e.2 else readFile fs n := by
  simp only [readFile, List.find?_cons]
  by_cases h : (e.1 == n) = true <;> simp [h]

theorem deleteFile_cons (e : String × String) (fs : FS) (m : String) :
    deleteFile (e :: fs) m
      = if e.1 != m then e :: deleteFile fs m else deleteFile fs m := by
  simp [deleteFile, List.filter_cons]

theorem readFile_deleteFile (fs : FS) (n m : String) :
    readFile (deleteFile fs m) n = if n = m then none else readFile fs n := by
  induction fs with
  | nil => simp [readFile, deleteFile]
  | cons e fs ih =>
    by_cases hem : e.1 = m
    · have h1 : (e.1 != m) = false := by simp [hem]
      rw [deleteFile_cons, h1]
      simp only [Bool.false_eq_true, if_false]
      rw [ih]
      by_cases hnm : n = m
      · simp [hnm]
      · have hen : (e.1 == n) = false := by
          apply beq_eq_false_iff_ne.mpr
          rw [hem]
          exact fun hc => hnm hc.symm
        simp [hnm, readFile_cons, hen]
    · have h1 : (e.1 != m) = true := bne_iff_ne.mpr hem
      rw [deleteFile_cons, h1]
      simp only [if_true]
      by_cases hen : e.1 = n
      · have hnm : ¬n = m := fun hc => hem (hen.trans hc)
        have henb : (e.1 == n) = true := beq_iff_eq.mpr hen
        simp [readFile_cons, henb, hnm]
      · have henb : (e.1 == n) = false := beq_eq_false_iff_ne.mpr hen
        simp only [readFile_cons, henb, Bool.false_eq_true, if_false]
        exact ih

theorem readFile_append_of_none (f g : FS) (n : String) (h : readFile f n = none) :
    readFile (f ++ g) n = readFile g n := by
  induction f with
  | nil => rfl
  | cons e f ih =>
    rw [readFile_cons] at h
    by_cases he : (e.1 == n) = true
    · rw [he] at h
      simp at h
    · have hf : readFile f n = none := by
        simp only [he, Bool.false_eq_true, if_false] at h
        exact h
      rw [List.cons_append, readFile_cons]
      simp only [he, Bool.false_eq_true, if_false]
      exact ih hf

theorem readFile_append_of_some (f g : FS) (n v : String) (h : readFile f n = some v) :
    readFile (f ++ g) n = some v := by
  induction f with
  | nil => simp [readFile] at h
  | cons e f ih =>
    rw [readFile_cons] at h
    by_cases he : (e.1 == n) = true
    · rw [he] at h
      simp only [if_true] at h
      rw [List.cons_append, readFile_cons, he]
      simp [h]
    · simp only [he, Bool.false_eq_true, if_false] at h
      rw [List.cons_append, readFile_cons]
      simp only [he, Bool.false_eq_true, if_false]
      exact ih h

theorem readFile_single_ne (n c m : String) (h : m ≠ n) :
    readFile [(n, c)] m = none := by
  have : (n == m) = false := beq_eq_false_iff_ne.mpr (fun hc => h hc.symm)
  simp [readFile_cons, this, readFile]

theorem readFile_writeFileFs_self (fs : FS) (n c : String) :
    readFile (writeFileFs fs n c) n = some c := by
  unfold writeFileFs
  have hd : readFile (deleteFile fs n) n = none := by
    rw [readFile_deleteFile]
    simp
  rw [readFile_append_of_none _ _ _ hd]
  simp [readFile_cons]

theorem readFile_writeFileFs_ne (fs : FS) (n c m : String) (h : m ≠ n) :
    readFile (writeFileFs fs n c) m = readFile fs m := by
  unfold writeFileFs
  have hd : readFile (deleteFile fs n) m = readFile fs m := by
    rw [readFile_deleteFile]
    simp [h]
  cases hf : readFile fs m with
  | none =>
    rw [readFile_append_of_none _ _ _ (hd.trans hf)]
    exact readFile_single_ne n c m h
  | some v =>
    exact readFile_append_of_some _ _ _ _ (hd.trans hf)

theorem mem_deleteFile (fs : FS) (m : String) (x : String × String)
    (h : x ∈ deleteFile fs m) : x ∈ fs :=
  (List.mem_filter.1 h).1

theorem mem_writeFileFs (fs : FS) (n c : String) (x : String × String)
    (h : x ∈ writeFileFs fs n c) : x ∈ fs ∨ x = (n, c) := by
  rcases List.mem_append.1 h with h1 | h2
  · exact Or.inl (mem_deleteFile _ _ _ h1)
  · exact Or.inr (List.mem_singleton.1 h2)

theorem exists_mem_of_readFile_some (fs : FS) (n v : String)
    (h : readFile fs n = some v) : (n, v) ∈ fs := by
  induction fs with
  | nil => simp [readFile] at h
  | cons e fs ih =>
    rw [readFile_cons] at h
    by_cases he : (e.1 == n) = true
    · have h2 : e.2 = v := Option.some.inj (by simpa [he] using h)
      have h1 : e.1 = n := beq_iff_eq.mp he
      have hev : (n, v) = e := by
        cases e with
        | mk a b =>
          simp only at h1 h2
          rw [← h1, ← h2]
      rw [hev]
      exact List.mem_cons_self e fs
    · simp only [he, Bool.false_eq_true, if_false] at h
      exact List.mem_cons_of_mem e (ih h)

theorem find?_of_filter_eq_single {α : Type} (p : α → Bool) (l : List α) (a : α)
    (h : l.filter p = [a]) : l.find? p = some a := by
  induction l with
  | nil => simp [List.filter] at h
  | cons x xs ih =>
    by_cases hx : p x = true
    · rw [List.filter_cons_of_pos hx] at h
      have hxa : x = a := (List.cons.injEq _ _ _ _ ▸ h).1
      rw [List.find?_cons_of_pos _ hx, hxa]
    · rw [List.filter_cons_of_neg (by simp [hx])] at h
      rw [List.find?_cons_of_neg _ (by simp [hx])]
      exact ih h

theorem pred_of_filter_eq_single {α : Type} (p : α → Bool) (l : List α) (a : α)
    (h : l.filter p = [a]) : p a = true := by
  have : a ∈ l.filter p := by rw [h]; exact List.mem_singleton_self a
  exact (List.mem_filter.1 this).2

/-! ## The style and app chunk patterns are mutually exclusive -/

theorem listStartsWith_iff (p : List Char) :
    ∀ r : List Char, listStartsWith p r = true ↔ ∃ t, r = p ++ t := by
  induction p with
  | nil =>
    intro r
    simp [listStartsWith]
  | cons a ps ih =>
    intro r
    cases r with
    | nil =>
      simp [listStartsWith]
    | cons b rs =>
      rw [listStartsWith]
      simp only [Bool.and_eq_true, beq_iff_eq, ih rs]
      constructor
      · rintro ⟨hab, t, ht⟩
        exact ⟨t, by rw [hab, ht, List.cons_append]⟩
      · rintro ⟨t, ht⟩
        rw [List.cons_append] at ht
        injection ht with h1 h2
        exact ⟨h1.symm, t, h2⟩

theorem style_app_exclusive (name : String)
    (h1 : matchesStyleChunk name = true) (h2 : matchesAppChunk name = true) : False := by
  simp only [matchesStyleChunk, chunkPatRev, Bool.and_eq_true] at h1
  simp only [matchesAppChunk, chunkPatRev, Bool.and_eq_true] at h2
  obtain ⟨-, hs3⟩ := h1
  obtain ⟨-, ha3⟩ := h2
  rcases (listStartsWith_iff _ _).1 hs3 with ⟨t1, e1⟩
  rcases (listStartsWith_iff _ _).1 ha3 with ⟨t2, e2⟩
  rw [e1] at e2
  simp [List.cons_append] at e2

theorem style_app_names_ne (n1 n2 : String)
    (h1 : matchesStyleChunk n1 = true) (h2 : matchesAppChunk n2 = true) : n1 ≠ n2 := by
  intro he
  exact style_app_exclusive n1 h1 (he ▸ h2)

/-! ## Claims C1 and C2: the asset-stitching step -/

/-- Concrete report with distinct chunk assets in the client target
(`children[0]`) and in the server target (`children[1]`). -/
def cexServerTargetChunks : TargetStats :=
  { assets := [{ name := "styles.cccccccc.js" }, { name := "app.dddddddd.js" }]
    errors := [] }

/-- Two-target report: client chunks named `aaaaaaaa`/`bbbbbbbb`, server
chunks named `cccccccc`/`dddddddd`. -/
def cexTwoTargetStats : Stats :=
  { children :=
      [{ assets := [{ name := "styles.aaaaaaaa.js" }, { name := "app.bbbbbbbb.js" }]
         errors := [] },
       cexServerTargetChunks] }

/-- The emitted files of the two-target report, with distinct contents. -/
def cexTwoTargetFs : FS :=
  [("styles.aaaaaaaa.js", "P"), ("app.bbbbbbbb.js", "Q"),
   ("styles.cccccccc.js", "R"), ("app.dddddddd.js", "T")]

/-- Counterexample to claim C1 as stated: the stitching step does NOT
search the server-target's asset list.  On a report whose client target
(`children[0]`) and server target (`children[1]`) carry differently named
chunks, the searched list is not the server's, and stitching deletes the
client style chunk and rewrites the client app chunk while both server
chunks survive untouched. -/
theorem c1_counterexample_stitch_target :
    stitchSearchedAssets cexTwoTargetStats ≠ some cexServerTargetChunks.assets
    ∧ workaroundEmptyStyleChunk cexTwoTargetStats cexTwoTargetFs
        = some [("styles.cccccccc.js", "R"), ("app.dddddddd.js", "T"),
                ("app.bbbbbbbb.js", "PQ")] := by
  constructor
  · decide
  · decide

/-- Claim C1 (amended): the asset-stitching step locates the style chunk
(name matching `/styles\.\w{8}\.js$/`) and the app chunk (name matching
`/app\.\w{8}\.js$/`) by searching the FIRST target's — the client's —
asset list of the CompileReport, the compile report's targets being
ordered [client, server]. -/
theorem c1_amended_stitch_target (client server : TargetStats) :
    stitchSearchedAssets { children := [client, server] } = some client.assets := rfl

/-- Claim C2: when the searched (first-target) asset list has exactly one
asset matching the style-chunk pattern, with file content `s`, and exactly
one matching the app-chunk pattern, with file content `a`, the stitching
step succeeds, the app-chunk file afterwards contains exactly `s ++ a`
(style content first), the style-chunk file no longer exists, and every
other file is unchanged. -/
theorem c2_stitch_result (stats : Stats) (fs : FS) (child0 : TargetStats)
    (styleA appA : Asset) (s a : String)
    (hc : stats.children.head? = some child0)
    (hs : child0.assets.filter (fun x => matchesStyleChunk x.name) = [styleA])
    (ha : child0.assets.filter (fun x => matchesAppChunk x.name) = [appA])
    (hrs : readFile fs styleA.name = some s)
    (hra : readFile fs appA.name = some a) :
    ∃ fs', workaroundEmptyStyleChunk stats fs = some fs'
      ∧ readFile fs' appA.name = some (s ++ a)
      ∧ readFile fs' styleA.name = none
      ∧ ∀ n, n ≠ appA.name → n ≠ styleA.name → readFile fs' n = readFile fs n := by
  have hsf : child0.assets.find? (fun x => matchesStyleChunk x.name) = some styleA :=
    find?_of_filter_eq_single _ _ _ hs
  have haf : child0.assets.find? (fun x => matchesAppChunk x.name) = some appA :=
    find?_of_filter_eq_single _ _ _ ha
  have hsp : matchesStyleChunk styleA.name = true :=
    pred_of_filter_eq_single (fun x => matchesStyleChunk x.name) child0.assets styleA hs
  have hap : matchesAppChunk appA.name = true :=
    pred_of_filter_eq_single (fun x => matchesAppChunk x.name) child0.assets appA ha
  have hne : styleA.name ≠ appA.name := style_app_names_ne _ _ hsp hap
  have hsa : stitchSearchedAssets stats = some child0.assets := by
    rw [stitchSearchedAssets, hc]
    rfl
  have hra1 : readFile (deleteFile fs styleA.name) appA.name = some a := by
    rw [readFile_deleteFile, if_neg (Ne.symm hne)]
    exact hra
  refine ⟨writeFileFs (deleteFile fs styleA.name) appA.name (s ++ a), ?_, ?_, ?_, ?_⟩
  · simp only [workaroundEmptyStyleChunk, hsa, hsf, hrs, haf, hra1]
  · exact readFile_writeFileFs_self _ _ _
  · rw [readFile_writeFileFs_ne _ _ _ _ hne, readFile_deleteFile, if_pos rfl]
  · intro n hn1 hn2
    rw [readFile_writeFileFs_ne _ _ _ _ hn1, readFile_deleteFile, if_neg hn2]

/-- Concrete one-chunk-each client target used by several witnesses. -/
def okClientTarget : TargetStats :=
  { assets := [{ name := "styles.12345678.js" }, { name := "app.abcdef12.js" }]
    errors := [] }

/-- Concrete error-free two-target report used by several witnesses. -/
def okStats : Stats :=
  { children := [okClientTarget, { assets := [], errors := [] }] }

/-- Concrete emitted chunk files matching `okStats`. -/
def chunkFs : FS :=
  [("styles.12345678.js", "S"), ("app.abcdef12.js", "A")]

/-- Witness for claim C2 on the concrete report `okStats`. -/
theorem c2_stitch_result_witness :
    (okStats.children.head? = some okClientTarget
      ∧ okClientTarget.assets.filter (fun x => matchesStyleChunk x.name)
          = [{ name := "styles.12345678.js" }]
      ∧ okClientTarget.assets.filter (fun x => matchesAppChunk x.name)
          = [{ name := "app.abcdef12.js" }]
      ∧ readFile chunkFs "styles.12345678.js" = some "S"
      ∧ readFile chunkFs "app.abcdef12.js" = some "A")
    ∧ ∃ fs', workaroundEmptyStyleChunk okStats chunkFs = some fs'
      ∧ readFile fs' "app.abcdef12.js" = some ("S" ++ "A")
      ∧ readFile fs' "styles.12345678.js" = none
      ∧ ∀ n, n ≠ "app.abcdef12.js" → n ≠ "styles.12345678.js" →
          readFile fs' n = readFile chunkFs n :=
  ⟨⟨by decide, by decide, by decide, by decide, by decide⟩,
    c2_stitch_result okStats chunkFs okClientTarget
      { name := "styles.12345678.js" } { name := "app.abcdef12.js" } "S" "A"
      (by decide) (by decide) (by decide) (by decide) (by decide)⟩

/-! ## The build pipeline (source lines 19-68) -/

/-- The observable side effects of one build run, in program order. -/
inductive Event where
  | rimrafOutDir
  | logCompileError (err : String)
  | compileDone
  | readManifest (which : String)
  | deleteManifestDir
  | stitch
  | writePage (name content : String)
  | logRenderError (pagePath detail : String)
  | logSuccess
  deriving DecidableEq

/-- The events that belong to the phases after compilation: manifest
loading, asset stitching, page rendering/writing, and the success line. -/
def isPostCompileEvent : Event → Bool
  | Event.readManifest _ => true
  | Event.deleteManifestDir => true
  | Event.stitch => true
  | Event.writePage _ _ => true
  | Event.logRenderError _ _ => true
  | Event.logSuccess => true
  | _ => false

/-- The outcome of the webpack invocation (source line 74): either the
callback's `err` argument, or the produced multi-stats. -/
inductive CompileOutcome where
  | webpackError (err : String)
  | finished (stats : Stats)

/-- `userHeadTags` (source lines 54-56):
`(options.siteConfig.head || []).map(renderHeadTag).join('\n  ')`,
computed once for the whole build. -/
def userHeadTags (cfg : SiteConfig) : String :=
  String.intercalate "\n  " ((cfg.head.getD []).map renderHeadTag)

/-- The render context built for one page (source lines 110-119). -/
def mkContext (uht : String) (page : Page) : RenderContext :=
  { url := page.path
    userHeadTags := uht
    pageMeta := renderPageMeta (page.frontmatter.bind Frontmatter.meta)
    title := "VuePress"
    lang := "en" }

/-- `renderPage` (source lines 109-133): try the render; on failure log
the page path and detail and write nothing; on success write the rendered
HTML to the page's output file. -/
def renderPageEvents (render : RenderContext → Except String String)
    (uht : String) (page : Page) : List Event :=
  match render (mkContext uht page) with
  | Except.error e => [Event.logRenderError page.path e]
  | Except.ok html => [Event.writePage (outputFilename page.path) html]

/-- The pages actually rendered by one build (source lines 59-64): all of
`options.siteData.pages`, followed by the synthetic `{ path: '/404.html' }`
page exactly when no existing page has that path. -/
def buildPages (opts : SiteOptions) : List Page :=
  opts.siteData.pages ++
    (if opts.siteData.pages.any (fun p => p.path == "/404.html") then []
     else [{ path := "/404.html", frontmatter := none }])

/-- The page-emission phase of the build: the per-page events of every
rendered page, in page order (one linearization of the concurrent
`Promise.all`, whose writes target distinct paths in the intended use). -/
def emitPages (render : RenderContext → Except String String)
    (opts : SiteOptions) : List Event :=
  ((buildPages opts).map (renderPageEvents render (userHeadTags opts.siteConfig))).flatten

/-- Apply one event to the file system: only page writes change it. -/
def applyEvent (fs : FS) (ev : Event) : FS :=
  match ev with
  | Event.writePage n c => writeFileFs fs n c
  | _ => fs

/-- Apply a list of events to the file system, in order. -/
def applyEvents (fs : FS) : List Event → FS
  | [] => fs
  | ev :: rest => applyEvents (applyEvent fs ev) rest

/-- The build pipeline (source lines 19-68), over:
the webpack outcome, the external renderer, the prepared site options,
and the file system as written by webpack into the cleaned `outDir`
(including the two manifest files).  Returns the event trace together
with the final file system, or with the error terminating the build:
* webpack callback error: rejected unchanged, nothing logged (line 76);
* `stats.hasErrors()`: every `stats.toJson().errors` entry logged, then
  the aggregate failure (lines 78-84);
* missing manifest: the `require` at lines 33-34 throws;
* then manifest directory removal (line 37), stitching (line 42, fatal
  when it fails), page emission (lines 59-64) and the success line. -/
def build (outcome : CompileOutcome) (render : RenderContext → Except String String)
    (opts : SiteOptions) (emittedFs : FS) : List Event × Except String FS :=
  match outcome with
  | CompileOutcome.webpackError e => ([Event.rimrafOutDir], Except.error e)
  | CompileOutcome.finished stats =>
    if hasErrors stats then
      (Event.rimrafOutDir :: (statsErrors stats).map Event.logCompileError,
        Except.error "Failed to compile with errors.")
    else
      match readFile emittedFs "manifest/server.json" with
      | none => ([Event.rimrafOutDir, Event.compileDone],
          Except.error "Cannot find module manifest/server.json")
      | some _ =>
        match readFile emittedFs "manifest/client.json" with
        | none => ([Event.rimrafOutDir, Event.compileDone],
            Except.error "Cannot find module manifest/client.json")
        | some _ =>
          match workaroundEmptyStyleChunk stats (removeManifestDir emittedFs) with
          | none => ([Event.rimrafOutDir, Event.compileDone,
              Event.readManifest "server", Event.readManifest "client",
              Event.deleteManifestDir],
              Except.error "workaroundEmptyStyleChunk failed")
          | some fs2 =>
            ([Event.rimrafOutDir, Event.compileDone,
              Event.readManifest "server", Event.readManifest "client",
              Event.deleteManifestDir, Event.stitch]
                ++ emitPages render opts ++ [Event.logSuccess],
              Except.ok (applyEvents fs2 (emitPages render opts)))

/-- The file names written by page emission, in write order. -/
def emittedHtmlFiles (evs : List Event) : List String :=
  evs.filterMap (fun ev =>
    match ev with
    | Event.writePage n _ => some n
    | _ => none)

/-- Whether an `Except` result is a success. -/
def isOkB : Except String String → Bool
  | Except.ok _ => true
  | Except.error _ => false

/-! ## Build-pipeline lemmas -/

theorem build_ok_elim (outcome : CompileOutcome)
    (render : RenderContext → Except String String) (opts : SiteOptions)
    (emittedFs : FS) (tr : List Event) (fsF : FS)
    (h : build outcome render opts emittedFs = (tr, Except.ok fsF)) :
    ∃ stats fs2, outcome = CompileOutcome.finished stats
      ∧ hasErrors stats = false
      ∧ workaroundEmptyStyleChunk stats (removeManifestDir emittedFs) = some fs2
      ∧ tr = [Event.rimrafOutDir, Event.compileDone, Event.readManifest "server",
              Event.readManifest "client", Event.deleteManifestDir, Event.stitch]
          ++ emitPages render opts ++ [Event.logSuccess]
      ∧ fsF = applyEvents fs2 (emitPages render opts) := by
  cases outcome with
  | webpackError e => simp [build] at h
  | finished stats =>
    by_cases he : hasErrors stats = true
    · simp [build, he] at h
    · simp only [build, he, Bool.false_eq_true, if_false] at h
      split at h
      · simp at h
      · split at h
        · simp at h
        · split at h
          · simp at h
          · rename_i fs2 hw
            simp only [Prod.mk.injEq, Except.ok.injEq] at h
            refine ⟨stats, fs2, rfl, by simpa using he, hw, h.1.symm, h.2.symm⟩

theorem emittedHtmlFiles_append (a b : List Event) :
    emittedHtmlFiles (a ++ b) = emittedHtmlFiles a ++ emittedHtmlFiles b := by
  simp [emittedHtmlFiles, List.filterMap_append]

theorem emittedHtml_of_all_ok (render : RenderContext → Except String String)
    (uht : String) (ps : List Page)
    (h : ∀ p ∈ ps, isOkB (render (mkContext uht p)) = true) :
    emittedHtmlFiles ((ps.map (renderPageEvents render uht)).flatten)
      = ps.map (fun p => outputFilename p.path) := by
  induction ps with
  | nil => rfl
  | cons p ps ih =>
    have hp := h p (List.mem_cons_self p ps)
    have hrest : ∀ q ∈ ps, isOkB (render (mkContext uht q)) = true :=
      fun q hq => h q (List.mem_cons_of_mem p hq)
    cases hr : render (mkContext uht p) with
    | error e =>
      rw [hr] at hp
      simp [isOkB] at hp
    | ok html =>
      have hone : emittedHtmlFiles (renderPageEvents render uht p)
          = [outputFilename p.path] := by
        simp [renderPageEvents, hr, emittedHtmlFiles]
      rw [List.map_cons, List.flatten_cons, emittedHtmlFiles_append, hone,
        ih hrest, List.map_cons, List.singleton_append]

theorem mem_applyEvent (fs : FS) (ev : Event) (x : String × String)
    (h : x ∈ applyEvent fs ev) :
    x ∈ fs ∨ ∃ n c, ev = Event.writePage n c ∧ x = (n, c) := by
  cases ev
  case writePage n c =>
    rcases mem_writeFileFs _ _ _ _ h with h1 | h2
    · exact Or.inl h1
    · exact Or.inr ⟨n, c, rfl, h2⟩
  all_goals exact Or.inl h

theorem applyEvents_mem (evs : List Event) :
    ∀ (fs : FS) (x : String × String), x ∈ applyEvents fs evs →
      x ∈ fs ∨ ∃ c, Event.writePage x.1 c ∈ evs := by
  induction evs with
  | nil =>
    intro fs x hx
    exact Or.inl hx
  | cons ev rest ih =>
    intro fs x hx
    rw [applyEvents] at hx
    rcases ih _ _ hx with h1 | ⟨c, h2⟩
    · rcases mem_applyEvent _ _ _ h1 with h3 | ⟨n, c, he, hxe⟩
      · exact Or.inl h3
      · subst hxe
        refine Or.inr ⟨c, ?_⟩
        rw [he]
        exact List.mem_cons_self _ _
    · exact Or.inr ⟨c, List.mem_cons_of_mem _ h2⟩

theorem emitPages_write_src (render : RenderContext → Except String String)
    (opts : SiteOptions) (n c : String)
    (h : Event.writePage n c ∈ emitPages render opts) :
    ∃ p, p ∈ buildPages opts ∧ n = outputFilename p.path := by
  rw [emitPages] at h
  rcases List.mem_flatten.1 h with ⟨l, hl, hev⟩
  rcases List.mem_map.1 hl with ⟨p, hp, rfl⟩
  refine ⟨p, hp, ?_⟩
  cases hr : render (mkContext (userHeadTags opts.siteConfig) p) with
  | error e =>
    simp only [renderPageEvents, hr] at hev
    simp at hev
  | ok html =>
    simp only [renderPageEvents, hr, List.mem_singleton, Event.writePage.injEq] at hev
    exact hev.1

theorem mem_removeManifestDir (fs : FS) (x : String × String)
    (h : x ∈ removeManifestDir fs) :
    strStartsWith x.1 "manifest/" = false ∧ x.1 ≠ "manifest" := by
  have hx := (List.mem_filter.1 h).2
  simp only [Bool.and_eq_true, Bool.not_eq_true', bne_iff_ne] at hx
  exact hx

theorem workaround_keys (stats : Stats) (fs fs2 : FS)
    (h : workaroundEmptyStyleChunk stats fs = some fs2) :
    ∀ x : String × String, x ∈ fs2 → ∃ c, (x.1, c) ∈ fs := by
  rw [workaroundEmptyStyleChunk] at h
  split at h
  · simp at h
  · split at h
    · simp at h
    · rename_i styleChunk hsf
      split at h
      · simp at h
      · rename_i sc hsc
        split at h
        · simp at h
        · rename_i appChunk haf
          split at h
          · simp at h
          · rename_i ac hac
            have hfs2 : fs2
                = writeFileFs (deleteFile fs styleChunk.name) appChunk.name (sc ++ ac) :=
              (Option.some.inj h).symm
            intro x hx
            rw [hfs2] at hx
            rcases mem_writeFileFs _ _ _ _ hx with h1 | h2
            · exact ⟨x.2, by simpa using mem_deleteFile _ _ _ h1⟩
            · have hm : (appChunk.name, ac) ∈ deleteFile fs styleChunk.name :=
                exists_mem_of_readFile_some _ _ _ hac
              rw [h2]
              exact ⟨ac, mem_deleteFile _ _ _ hm⟩

/-! ## Claim C5: compile errors are fatal and fully surfaced -/

/-- Claim C5: whenever the compilation result carries at least one
target-level error, the build returns the aggregate compile error; each
individual compiler error is logged in the trace, and no post-compile
phase (manifest load, manifest delete, stitch, page write, page render
log, success line) occurs. -/
theorem c5_compile_errors_fatal (stats : Stats)
    (render : RenderContext → Except String String) (opts : SiteOptions)
    (emittedFs : FS) (h : hasErrors stats = true) :
    build (CompileOutcome.finished stats) render opts emittedFs
        = (Event.rimrafOutDir :: (statsErrors stats).map Event.logCompileError,
           Except.error "Failed to compile with errors.")
    ∧ (∀ e ∈ statsErrors stats,
        Event.logCompileError e
          ∈ (build (CompileOutcome.finished stats) render opts emittedFs).1)
    ∧ (∀ ev ∈ (build (CompileOutcome.finished stats) render opts emittedFs).1,
        isPostCompileEvent ev = false) := by
  have hb : build (CompileOutcome.finished stats) render opts emittedFs
      = (Event.rimrafOutDir :: (statsErrors stats).map Event.logCompileError,
         Except.error "Failed to compile with errors.") := by
    simp [build, h]
  refine ⟨hb, ?_, ?_⟩
  · intro e he
    rw [hb]
    exact List.mem_cons_of_mem _ (List.mem_map_of_mem _ he)
  · intro ev hev
    rw [hb] at hev
    rcases List.mem_cons.1 hev with h1 | h2
    · rw [h1]
      rfl
    · rcases List.mem_map.1 h2 with ⟨e, -, rfl⟩
      rfl

/-- A renderer that succeeds on every context, used by witnesses. -/
def renderOk : RenderContext → Except String String :=
  fun _ => Except.ok "H"

/-- Site options with no pages and no configured head tags. -/
def emptyOpts : SiteOptions :=
  { outDir := "dist", siteConfig := { head := none }, siteData := { pages := [] } }

/-- A report whose first target carries two errors. -/
def errStats : Stats :=
  { children := [{ assets := [], errors := ["err one", "err two"] },
                 { assets := [], errors := [] }] }

/-- Witness for claim C5 on the concrete failing report `errStats`. -/
theorem c5_compile_errors_fatal_witness :
    hasErrors errStats = true
    ∧ (build (CompileOutcome.finished errStats) renderOk emptyOpts []
        = (Event.rimrafOutDir :: (statsErrors errStats).map Event.logCompileError,
           Except.error "Failed to compile with errors.")
      ∧ (∀ e ∈ statsErrors errStats,
          Event.logCompileError e
            ∈ (build (CompileOutcome.finished errStats) renderOk emptyOpts []).1)
      ∧ (∀ ev ∈ (build (CompileOutcome.finished errStats) renderOk emptyOpts []).1,
          isPostCompileEvent ev = false)) :=
  ⟨by decide, c5_compile_errors_fatal errStats renderOk emptyOpts [] (by decide)⟩

/-! ## Claim C10: the render context constants -/

/-- Claim C10: for every page rendered by a build (the synthetic 404 page
included), the render context passed to `renderToString` has title
`VuePress` and lang `en`, and its `userHeadTags` field is the one
build-wide string `userHeadTags opts.siteConfig`; when `siteConfig.head`
is absent that string is empty. -/
theorem c10_render_context (opts : SiteOptions) (page : Page)
    (_hp : page ∈ buildPages opts) :
    (mkContext (userHeadTags opts.siteConfig) page).title = "VuePress"
    ∧ (mkContext (userHeadTags opts.siteConfig) page).lang = "en"
    ∧ (mkContext (userHeadTags opts.siteConfig) page).userHeadTags
        = userHeadTags opts.siteConfig
    ∧ (opts.siteConfig.head = none → userHeadTags opts.siteConfig = "") := by
  refine ⟨rfl, rfl, rfl, ?_⟩
  intro hh
  rw [userHeadTags, hh]
  rfl

/-- Site options used by the C10 witness: one page, no head config. -/
def c10Opts : SiteOptions :=
  { outDir := "dist", siteConfig := { head := none }
    siteData := { pages := [{ path := "/a.html", frontmatter := none }] } }

/-- Witness for claim C10: the concrete page of `c10Opts` is rendered and
its context carries the constants and the build-wide head-tag string. -/
theorem c10_render_context_witness :
    ({ path := "/a.html", frontmatter := none } : Page) ∈ buildPages c10Opts
    ∧ ((mkContext (userHeadTags c10Opts.siteConfig)
          { path := "/a.html", frontmatter := none }).title = "VuePress"
      ∧ (mkContext (userHeadTags c10Opts.siteConfig)
          { path := "/a.html", frontmatter := none }).lang = "en"
      ∧ (mkContext (userHeadTags c10Opts.siteConfig)
          { path := "/a.html", frontmatter := none }).userHeadTags
            = userHeadTags c10Opts.siteConfig
      ∧ (c10Opts.siteConfig.head = none → userHeadTags c10Opts.siteConfig = "")) :=
  ⟨by decide, c10_render_context c10Opts { path := "/a.html", frontmatter := none } (by decide)⟩

/-! ## Claim C3: emitted file count -/

/-- Site options with two pages sharing one path, used as a counterexample. -/
def dupOpts : SiteOptions :=
  { outDir := "dist", siteConfig := { head := none }
    siteData := { pages := [{ path := "/a.html", frontmatter := none },
                            { path := "/a.html", frontmatter := none }] } }

/-- Counterexample to claim C3 as stated: with N = 2 pages, none at
`/404.html`, and every render succeeding, the set of emitted HTML files
does NOT have N + 1 elements — the two pages share the path `/a.html`, so
only two distinct files (`a.html` and `404.html`) are ever written. -/
theorem c3_counterexample_duplicate_paths :
    (dupOpts.siteData.pages.any (fun p => p.path == "/404.html")) = false
    ∧ ((buildPages dupOpts).all
        (fun p => isOkB (renderOk (mkContext (userHeadTags dupOpts.siteConfig) p)))) = true
    ∧ (emittedHtmlFiles (emitPages renderOk dupOpts)).dedup.length
        ≠ dupOpts.siteData.pages.length + 1 := by
  refine ⟨by decide, by decide, by decide⟩

/-- Claim C3 (amended): additionally requiring that the pages' computed
output file names (together with `404.html` in the no-404-page case) are
pairwise distinct.  Then: with no page at `/404.html` and all renders
succeeding, exactly N + 1 distinct HTML files are emitted, `404.html`
included; with a page at `/404.html`, no synthetic 404 page is rendered
and exactly N files are emitted. -/
theorem c3_amended_file_count (render : RenderContext → Except String String)
    (opts : SiteOptions) :
    ((opts.siteData.pages.any (fun p => p.path == "/404.html")) = false →
      (∀ p ∈ buildPages opts,
        isOkB (render (mkContext (userHeadTags opts.siteConfig) p)) = true) →
      ((opts.siteData.pages.map (fun p => outputFilename p.path)) ++ ["404.html"]).Nodup →
      emittedHtmlFiles (emitPages render opts)
          = opts.siteData.pages.map (fun p => outputFilename p.path) ++ ["404.html"]
        ∧ (emittedHtmlFiles (emitPages render opts)).dedup.length
            = opts.siteData.pages.length + 1
        ∧ "404.html" ∈ emittedHtmlFiles (emitPages render opts))
    ∧ ((opts.siteData.pages.any (fun p => p.path == "/404.html")) = true →
      (∀ p ∈ buildPages opts,
        isOkB (render (mkContext (userHeadTags opts.siteConfig) p)) = true) →
      (opts.siteData.pages.map (fun p => outputFilename p.path)).Nodup →
      buildPages opts = opts.siteData.pages
        ∧ emittedHtmlFiles (emitPages render opts)
            = opts.siteData.pages.map (fun p => outputFilename p.path)
        ∧ (emittedHtmlFiles (emitPages render opts)).dedup.length
            = opts.siteData.pages.length) := by
  constructor
  · intro h404 hok hnd
    have hbp : buildPages opts
        = opts.siteData.pages ++ [{ path := "/404.html", frontmatter := none }] := by
      rw [buildPages, h404]
      simp
    have he : emittedHtmlFiles (emitPages render opts)
        = (buildPages opts).map (fun p => outputFilename p.path) := by
      rw [emitPages]
      exact emittedHtml_of_all_ok _ _ _ hok
    have h404f : outputFilename "/404.html" = "404.html" := by decide
    have he2 : emittedHtmlFiles (emitPages render opts)
        = opts.siteData.pages.map (fun p => outputFilename p.path) ++ ["404.html"] := by
      rw [he, hbp, List.map_append]
      simp [h404f]
    refine ⟨he2, ?_, ?_⟩
    · rw [he2, List.dedup_eq_self.mpr hnd]
      simp
    · rw [he2]
      exact List.mem_append_right _ (List.mem_singleton_self _)
  · intro h404 hok hnd
    have hbp : buildPages opts = opts.siteData.pages := by
      rw [buildPages, h404]
      simp
    have he : emittedHtmlFiles (emitPages render opts)
        = (buildPages opts).map (fun p => outputFilename p.path) := by
      rw [emitPages]
      exact emittedHtml_of_all_ok _ _ _ hok
    rw [hbp] at he
    refine ⟨hbp, he, ?_⟩
    rw [he, List.dedup_eq_self.mpr hnd]
    simp

/-- Site options for the C3 witness: the root page and one inner page. -/
def c3wOpts : SiteOptions :=
  { outDir := "dist", siteConfig := { head := none }
    siteData := { pages := [{ path := "/", frontmatter := none },
                            { path := "/b.html", frontmatter := none }] } }

/-- Witness for the amended claim C3: two pages with distinct output file
names and no `/404.html` page yield exactly three distinct HTML files. -/
theorem c3_amended_file_count_witness :
    ((c3wOpts.siteData.pages.any (fun p => p.path == "/404.html")) = false
      ∧ (∀ p ∈ buildPages c3wOpts,
          isOkB (renderOk (mkContext (userHeadTags c3wOpts.siteConfig) p)) = true)
      ∧ ((c3wOpts.siteData.pages.map (fun p => outputFilename p.path))
          ++ ["404.html"]).Nodup)
    ∧ (emittedHtmlFiles (emitPages renderOk c3wOpts)
        = c3wOpts.siteData.pages.map (fun p => outputFilename p.path) ++ ["404.html"]
      ∧ (emittedHtmlFiles (emitPages renderOk c3wOpts)).dedup.length
          = c3wOpts.siteData.pages.length + 1
      ∧ "404.html" ∈ emittedHtmlFiles (emitPages renderOk c3wOpts)) :=
  ⟨⟨by decide, by decide, by decide⟩,
    (c3_amended_file_count renderOk c3wOpts).1 (by decide) (by decide) (by decide)⟩

/-! ## Claim C4: per-page render failure is isolated -/

/-- Claim C4: when the render of a page `p` fails with detail `e` (and the
compile, manifest and stitching phases succeed), the build still finishes
with `Except.ok`; the failure is logged as `logRenderError p.path e` in
the trace; the failing page contributes exactly that log event and no
write; and every other rendered page's events are all present in the
trace. -/
theorem c4_render_failure_isolated (stats : Stats)
    (render : RenderContext → Except String String) (opts : SiteOptions)
    (emittedFs : FS) (fs2 : FS) (p : Page) (e : String)
    (hne : hasErrors stats = false)
    (hms : (readFile emittedFs "manifest/server.json").isSome = true)
    (hmc : (readFile emittedFs "manifest/client.json").isSome = true)
    (hwk : workaroundEmptyStyleChunk stats (removeManifestDir emittedFs) = some fs2)
    (hp : p ∈ opts.siteData.pages)
    (hr : render (mkContext (userHeadTags opts.siteConfig) p) = Except.error e) :
    ∃ tr fsF,
      build (CompileOutcome.finished stats) render opts emittedFs = (tr, Except.ok fsF)
      ∧ Event.logRenderError p.path e ∈ tr
      ∧ renderPageEvents render (userHeadTags opts.siteConfig) p
          = [Event.logRenderError p.path e]
      ∧ ∀ q ∈ buildPages opts,
          ∀ ev ∈ renderPageEvents render (userHeadTags opts.siteConfig) q, ev ∈ tr := by
  obtain ⟨sb, hsb⟩ := Option.isSome_iff_exists.mp hms
  obtain ⟨cm, hcm⟩ := Option.isSome_iff_exists.mp hmc
  have hb : build (CompileOutcome.finished stats) render opts emittedFs
      = ([Event.rimrafOutDir, Event.compileDone, Event.readManifest "server",
          Event.readManifest "client", Event.deleteManifestDir, Event.stitch]
            ++ emitPages render opts ++ [Event.logSuccess],
          Except.ok (applyEvents fs2 (emitPages render opts))) := by
    simp [build, hne, hsb, hcm, hwk]
  have hpe : renderPageEvents render (userHeadTags opts.siteConfig) p
      = [Event.logRenderError p.path e] := by
    simp [renderPageEvents, hr]
  have hmem : ∀ q ∈ buildPages opts,
      ∀ ev ∈ renderPageEvents render (userHeadTags opts.siteConfig) q,
        ev ∈ emitPages render opts := by
    intro q hq ev hev
    rw [emitPages]
    exact List.mem_flatten.2 ⟨_, List.mem_map_of_mem _ hq, hev⟩
  refine ⟨_, _, hb, ?_, hpe, ?_⟩
  · have hqp : p ∈ buildPages opts := List.mem_append_left _ hp
    have hin := hmem p hqp (Event.logRenderError p.path e)
      (by rw [hpe]; exact List.mem_singleton_self _)
    exact List.mem_append_left _ (List.mem_append_right _ hin)
  · intro q hq ev hev
    exact List.mem_append_left _ (List.mem_append_right _ (hmem q hq ev hev))

/-- A renderer that fails exactly on the URL `/b.html`. -/
def renderFailB : RenderContext → Except String String :=
  fun ctx => if ctx.url == "/b.html" then Except.error "boom" else Except.ok "H"

/-- Three pages, the second of which (`/b.html`) fails to render. -/
def threeOpts : SiteOptions :=
  { outDir := "dist", siteConfig := { head := none }
    siteData := { pages := [{ path := "/a.html", frontmatter := none },
                            { path := "/b.html", frontmatter := none },
                            { path := "/c.html", frontmatter := none }] } }

/-- Webpack-emitted files: the two manifests and the two chunk files. -/
def manifestChunkFs : FS :=
  [("manifest/server.json", "SB"), ("manifest/client.json", "CM"),
   ("styles.12345678.js", "S"), ("app.abcdef12.js", "A")]

/-- Witness for claim C4: with three pages and `/b.html` failing, the
build still succeeds, the failure is logged, `/b.html` writes nothing,
and the events of all pages are in the trace. -/
theorem c4_render_failure_isolated_witness :
    (hasErrors okStats = false
      ∧ (readFile manifestChunkFs "manifest/server.json").isSome = true
      ∧ (readFile manifestChunkFs "manifest/client.json").isSome = true
      ∧ workaroundEmptyStyleChunk okStats (removeManifestDir manifestChunkFs)
          = some [("app.abcdef12.js", "SA")]
      ∧ ({ path := "/b.html", frontmatter := none } : Page) ∈ threeOpts.siteData.pages
      ∧ renderFailB (mkContext (userHeadTags threeOpts.siteConfig)
          { path := "/b.html", frontmatter := none }) = Except.error "boom")
    ∧ ∃ tr fsF,
      build (CompileOutcome.finished okStats) renderFailB threeOpts manifestChunkFs
          = (tr, Except.ok fsF)
      ∧ Event.logRenderError "/b.html" "boom" ∈ tr
      ∧ renderPageEvents renderFailB (userHeadTags threeOpts.siteConfig)
          { path := "/b.html", frontmatter := none }
          = [Event.logRenderError "/b.html" "boom"]
      ∧ ∀ q ∈ buildPages threeOpts,
          ∀ ev ∈ renderPageEvents renderFailB (userHeadTags threeOpts.siteConfig) q,
            ev ∈ tr :=
  ⟨⟨by decide, by decide, by decide, by decide, by decide, by rfl⟩,
    c4_render_failure_isolated okStats renderFailB threeOpts manifestChunkFs
      [("app.abcdef12.js", "SA")] { path := "/b.html", frontmatter := none } "boom"
      (by decide) (by decide) (by decide) (by decide) (by decide) (by rfl)⟩

/-! ## Claim C8: manifest lifecycle -/

/-- Claim C8 (amended): on every successful build whose pages' output file
names do not lie under `manifest/` (and are not `manifest` itself), the
manifest directory is deleted only after both manifest reads — the trace
has the two reads at positions 2 and 3, the deletion at position 4, and
every occurrence of the deletion event lies after both reads — and no
file of the final output tree is `manifest` or lies under `manifest/`. -/
theorem c8_amended_manifest_lifecycle (outcome : CompileOutcome)
    (render : RenderContext → Except String String) (opts : SiteOptions)
    (emittedFs : FS) (tr : List Event) (fsF : FS)
    (hb : build outcome render opts emittedFs = (tr, Except.ok fsF))
    (hp : ∀ p ∈ opts.siteData.pages,
        strStartsWith (outputFilename p.path) "manifest/" = false
          ∧ outputFilename p.path ≠ "manifest") :
    tr[2]? = some (Event.readManifest "server")
    ∧ tr[3]? = some (Event.readManifest "client")
    ∧ tr[4]? = some Event.deleteManifestDir
    ∧ (∀ k, tr[k]? = some Event.deleteManifestDir → 3 < k)
    ∧ (∀ x : String × String, x ∈ fsF →
        strStartsWith x.1 "manifest/" = false ∧ x.1 ≠ "manifest") := by
  obtain ⟨stats, fs2, ho, hne, hwk, htr, hfs⟩ := build_ok_elim _ _ _ _ _ _ hb
  have hpre : ∀ n : Nat, n < 6 →
      tr[n]? = [Event.rimrafOutDir, Event.compileDone, Event.readManifest "server",
                Event.readManifest "client", Event.deleteManifestDir,
                Event.stitch][n]? := by
    intro n hn
    rw [htr, List.append_assoc]
    exact List.getElem?_append_left (by simpa using hn)
  refine ⟨?_, ?_, ?_, ?_, ?_⟩
  · rw [hpre 2 (by omega)]
    rfl
  · rw [hpre 3 (by omega)]
    rfl
  · rw [hpre 4 (by omega)]
    rfl
  · intro k hk
    by_contra hlt
    push_neg at hlt
    interval_cases k
    · rw [hpre 0 (by omega)] at hk
      simp at hk
    · rw [hpre 1 (by omega)] at hk
      simp at hk
    · rw [hpre 2 (by omega)] at hk
      simp at hk
    · rw [hpre 3 (by omega)] at hk
      simp at hk
  · intro x hx
    rw [hfs] at hx
    rcases applyEvents_mem _ _ _ hx with h1 | ⟨c, h2⟩
    · rcases workaround_keys _ _ _ hwk x h1 with ⟨c, hc⟩
      have hm := mem_removeManifestDir _ _ hc
      simpa using hm
    · rcases emitPages_write_src _ _ _ _ h2 with ⟨q, hq, hn⟩
      rw [buildPages] at hq
      rcases List.mem_append.1 hq with hq1 | hq2
      · rw [hn]
        exact hp q hq1
      · by_cases hc404 : (opts.siteData.pages.any (fun p => p.path == "/404.html")) = true
        · simp [hc404] at hq2
        · have hf404 : (opts.siteData.pages.any (fun p => p.path == "/404.html")) = false := by
            simpa using hc404
          simp only [hf404, Bool.false_eq_true, if_false, List.mem_singleton] at hq2
          rw [hn, hq2]
          exact ⟨by decide, by decide⟩

/-- Site options with a page whose output path lies under `manifest/`. -/
def c8cexOpts : SiteOptions :=
  { outDir := "dist", siteConfig := { head := none }
    siteData := { pages := [{ path := "/manifest/evil.html", frontmatter := none }] } }

/-- Counterexample to claim C8 as stated: a successful build whose final
output tree DOES contain a file under `manifest/` — the page at path
`/manifest/evil.html` recreates the directory after its deletion. -/
theorem c8_counterexample_manifest_page :
    build (CompileOutcome.finished okStats) renderOk c8cexOpts manifestChunkFs
        = ([Event.rimrafOutDir, Event.compileDone, Event.readManifest "server",
            Event.readManifest "client", Event.deleteManifestDir, Event.stitch,
            Event.writePage "manifest/evil.html" "H", Event.writePage "404.html" "H",
            Event.logSuccess],
           Except.ok [("app.abcdef12.js", "SA"), ("manifest/evil.html", "H"),
                      ("404.html", "H")])
    ∧ ("manifest/evil.html", "H")
        ∈ [("app.abcdef12.js", "SA"), ("manifest/evil.html", "H"), ("404.html", "H")]
    ∧ strStartsWith "manifest/evil.html" "manifest/" = true := by
  refine ⟨by rfl, by decide, by decide⟩

/-- Site options for the C8 witness: one ordinary page. -/
def c8wOpts : SiteOptions :=
  { outDir := "dist", siteConfig := { head := none }
    siteData := { pages := [{ path := "/x.html", frontmatter := none }] } }

/-- The successful trace of the C8 witness build. -/
def c8wTrace : List Event :=
  [Event.rimrafOutDir, Event.compileDone, Event.readManifest "server",
   Event.readManifest "client", Event.deleteManifestDir, Event.stitch,
   Event.writePage "x.html" "H", Event.writePage "404.html" "H", Event.logSuccess]

/-- The final file system of the C8 witness build. -/
def c8wFs : FS :=
  [("app.abcdef12.js", "SA"), ("x.html", "H"), ("404.html", "H")]

/-- Witness for the amended claim C8 on a concrete successful build. -/
theorem c8_amended_manifest_lifecycle_witness :
    (build (CompileOutcome.finished okStats) renderOk c8wOpts manifestChunkFs
        = (c8wTrace, Except.ok c8wFs)
      ∧ (∀ p ∈ c8wOpts.siteData.pages,
          strStartsWith (outputFilename p.path) "manifest/" = false
            ∧ outputFilename p.path ≠ "manifest"))
    ∧ (c8wTrace[2]? = some (Event.readManifest "server")
      ∧ c8wTrace[3]? = some (Event.readManifest "client")
      ∧ c8wTrace[4]? = some Event.deleteManifestDir
      ∧ (∀ k, c8wTrace[k]? = some Event.deleteManifestDir → 3 < k)
      ∧ (∀ x : String × String, x ∈ c8wFs →
          strStartsWith x.1 "manifest/" = false ∧ x.1 ≠ "manifest")) :=
  ⟨⟨by rfl, by decide⟩,
    c8_amended_manifest_lifecycle (CompileOutcome.finished okStats) renderOk c8wOpts
      manifestChunkFs c8wTrace c8wFs (by rfl) (by decide)⟩
